import Mathlib

/-!
Shallow embedding of the guest-identity resolution and task-tool dispatch
layer of a todo-chatbot backend (`mcp_server/server.py` and
`services/chat_service.py`), together with theorems checking the
specification's claims about that layer.

The database session is modelled as an explicit record of lists (users,
tasks, conversations, messages) threaded through each operation; Python's
`hash` and the password-hashing function are opaque parameters collected in
an `Env` record; fallible operations return `Except Err`.
-/

namespace TodoSpec

/-- ASCII lowercasing, modelling Python's `str.lower` / SQL `ILIKE` folding
on the character sets exercised by this code base. -/
def lowerChar : Char → Char
  | 'A' => 'a' | 'B' => 'b' | 'C' => 'c' | 'D' => 'd' | 'E' => 'e' | 'F' => 'f'
  | 'G' => 'g' | 'H' => 'h' | 'I' => 'i' | 'J' => 'j' | 'K' => 'k' | 'L' => 'l'
  | 'M' => 'm' | 'N' => 'n' | 'O' => 'o' | 'P' => 'p' | 'Q' => 'q' | 'R' => 'r'
  | 'S' => 's' | 'T' => 't' | 'U' => 'u' | 'V' => 'v' | 'W' => 'w' | 'X' => 'x'
  | 'Y' => 'y' | 'Z' => 'z'
  | c => c

/-- ASCII decimal digit test (`\d` of the regexes, restricted to ASCII). -/
def isDigitChar (c : Char) : Bool := decide ('0' ≤ c) && decide (c ≤ '9')

/-- ASCII whitespace test, for the surrounding whitespace `int()` accepts. -/
def isSpaceChar (c : Char) : Bool :=
  c == ' ' || c == '\t' || c == '\n' || c == '\r'

/-- The decimal digit character for `d < 10` (junk above). -/
def digitChar : Nat → Char
  | 0 => '0' | 1 => '1' | 2 => '2' | 3 => '3' | 4 => '4'
  | 5 => '5' | 6 => '6' | 7 => '7' | 8 => '8' | 9 => '9'
  | _ => '*'

/-- Numeric value of a digit character. -/
def dval (c : Char) : Nat := c.toNat - 48

/-- Value of a digit string, most significant first. -/
def digitsToNat (l : List Char) : Nat := l.foldl (fun a c => 10 * a + dval c) 0

/-- Decimal digits, fueled so that the kernel can evaluate it (the fuel
strictly exceeds the value, hence the number of digits). -/
def natToDigitsF : Nat → Nat → List Char
  | 0, _ => []
  | f + 1, n =>
    if n < 10 then [digitChar n]
    else natToDigitsF f (n / 10) ++ [digitChar (n % 10)]

/-- Decimal digits of `n`, most significant first (model of Python `str` on
a nonnegative integer). -/
def natToDigits (n : Nat) : List Char := natToDigitsF (n + 1) n

/-- Python `str` on an integer. -/
def intToStr (n : Int) : String :=
  if n < 0 then ⟨'-' :: natToDigits n.natAbs⟩ else ⟨natToDigits n.toNat⟩

/-- Strip leading and trailing whitespace. -/
def stripWS (l : List Char) : List Char :=
  ((l.dropWhile isSpaceChar).reverse.dropWhile isSpaceChar).reverse

/-- Parse an unsigned run of decimal digits (the digit part of `int()`):
nonempty and all digits, else failure. -/
def parseDigits (l : List Char) : Option Nat :=
  if l.isEmpty then none
  else if l.all isDigitChar then some (digitsToNat l) else none

/-- Sign-and-digits part of `int()`, after whitespace stripping. -/
def pyIntL (l : List Char) : Option Int :=
  if l.head? = some '+' then (parseDigits l.tail).map (fun m : Nat => (m : Int))
  else if l.head? = some '-' then (parseDigits l.tail).map (fun m : Nat => -(m : Int))
  else (parseDigits l).map (fun m : Nat => (m : Int))

/-- Model of Python `int(s)` on a string: surrounding whitespace, an
optional single sign, then decimal digits; anything else raises
(`none` here). -/
def pyInt (s : String) : Option Int := pyIntL (stripWS s.data)

/-- `isPrefixL pat l`: `pat` is a prefix of `l` (boolean). -/
def isPrefixL : List Char → List Char → Bool
  | [], _ => true
  | _ :: _, [] => false
  | p :: ps, c :: cs => p == c && isPrefixL ps cs

/-- `containsSub pat l`: `pat` occurs as a contiguous substring of `l`
(model of Python's `in` on strings). -/
def containsSub (pat : List Char) : List Char → Bool
  | [] => isPrefixL pat []
  | c :: s => isPrefixL pat (c :: s) || containsSub pat s

/-- `'guest' in s.lower()`, the guest test used throughout the code. -/
def containsGuest (s : String) : Bool :=
  containsSub ['g', 'u', 'e', 's', 't'] (s.data.map lowerChar)

/-- Model of `re.search(r'guest_(\d+)', s)` followed by `int(group(1))`:
scan left to right for an occurrence of the literal `guest_` immediately
followed by at least one digit; return the value of the maximal digit run
there (the regex used by `_get_user_id_for_guest`). -/
def extractGuestNum : List Char → Option Nat
  | [] => none
  | c :: rest =>
    if isPrefixL ['g', 'u', 'e', 's', 't', '_'] (c :: rest) then
      let ds := ((c :: rest).drop 6).takeWhile isDigitChar
      if ds.isEmpty then extractGuestNum rest else some (digitsToNat ds)
    else extractGuestNum rest

/-- Model of `re.search(r'(\d+)', s)` followed by `int(group(1))`: the
value of the first maximal run of digits anywhere in the string (the regex
used inline by `delete_task` and `update_task`). -/
def firstDigitsAux : List Char → Option Nat
  | [] => none
  | c :: rest =>
    if isDigitChar c then some (digitsToNat (c :: rest.takeWhile isDigitChar))
    else firstDigitsAux rest

/-- `firstDigitVal s`: first run of digits in `s`, as a number. -/
def firstDigitVal (s : String) : Option Nat := firstDigitsAux s.data

/-- SQL `LIKE` matching with `\` as escape character, fueled so that the
kernel can evaluate it; `%` matches any sequence, `_` any single
character, `\x` the literal `x`. -/
def likeMatchF : Nat → List Char → List Char → Bool
  | 0, _, _ => false
  | _ + 1, [], s => s.isEmpty
  | f + 1, p :: ps, s =>
    if p = '%' then
      likeMatchF f ps s ||
        (match s with
         | [] => false
         | _ :: s' => likeMatchF f (p :: ps) s')
    else if p = '\\' then
      match ps, s with
      | q :: ps', c :: s' => (q == c) && likeMatchF f ps' s'
      | _, _ => false
    else
      match s with
      | [] => false
      | c :: s' =>
        if p = '_' then likeMatchF f ps s'
        else (p == c) && likeMatchF f ps s'

/-- `likeMatch pat s`: SQL `LIKE` with enough fuel to be total. -/
def likeMatch (pat s : List Char) : Bool :=
  likeMatchF (pat.length + s.length + 1) pat s

/-- SQLAlchemy `column.ilike(pat)`: case-insensitive `LIKE`. -/
def ilike (s pat : String) : Bool :=
  likeMatch (pat.data.map lowerChar) (s.data.map lowerChar)

/-- `.replace('%', '\\%').replace('_', '\\_')` on the character list (the
first replacement introduces no `_`, so one pass is faithful). -/
def escapeL : List Char → List Char
  | [] => []
  | c :: cs =>
    (if c = '%' then ['\\', '%']
     else if c = '_' then ['\\', '_']
     else [c]) ++ escapeL cs

/-- String version of `escapeL`, as used by `delete_task`. -/
def escapeLike (s : String) : String := ⟨escapeL s.data⟩

/-! ## Data model -/

/-- A `User` row. -/
structure User where
  id : Int
  email : String
  username : String
  password_hash : String
  is_active : Bool
deriving DecidableEq

/-- A `Task` row. -/
structure Task where
  id : Int
  user_id : Int
  title : String
  description : String
  completed : Bool
deriving DecidableEq

/-- A `Conversation` row. -/
structure Conversation where
  id : Int
  user_id : Int
  updated_at : Nat
deriving DecidableEq

/-- A `Message` row. -/
structure Message where
  id : Int
  conversation_id : Int
  user_id : Int
  role : String
  content : String
  created_at : Nat
deriving DecidableEq

/-- The relational store behind the shared session, with the
autoincrement counters the database would maintain. -/
structure DB where
  users : List User
  tasks : List Task
  convs : List Conversation
  msgs : List Message
  nextUserId : Int
  nextTaskId : Int
deriving DecidableEq

/-- Opaque collaborators: Python's builtin `hash` on strings and the
password-hashing function `get_password_hash`. -/
structure Env where
  pyHash : String → Int
  pwHash : String → String

/-- The typed failures raised by this layer (each `raise ValueError`
site gets one constructor). -/
inductive Err where
  /-- `Invalid user: {user_id}` (authorization failure). -/
  | invalidUser (user_id : String)
  /-- `Invalid guest user_id format: {user_id}`. -/
  | invalidGuestFormat (user_id : String)
  /-- `Guest user not found in database: {user_id}`. -/
  | guestNotFound (user_id : String)
  /-- `Invalid user_id format`. -/
  | invalidUserIdFormat
  /-- `Invalid task_id format`. -/
  | invalidTaskIdFormat
  /-- `Invalid user_id or task_id format` (from `complete_task`). -/
  | invalidIdsFormat
  /-- an uncaught `ValueError` from a bare `int(...)` conversion. -/
  | intParseError
  /-- `Task {task_id} not found for user {user_id}`. -/
  | taskIdNotFound (task_id : String) (user_id : String)
  /-- `Task with title '{title}' not found for user {user_id}`. -/
  | titleNotFound (title : String) (user_id : String)
  /-- `Either task_id or title must be provided`. -/
  | missingIdentifier
deriving DecidableEq

instance {ε α : Type} [DecidableEq ε] [DecidableEq α] : DecidableEq (Except ε α) := fun x y =>
  match x, y with
  | .ok a, .ok b =>
    if h : a = b then .isTrue (by rw [h]) else .isFalse (fun hc => h (Except.ok.inj hc))
  | .error a, .error b =>
    if h : a = b then .isTrue (by rw [h]) else .isFalse (fun hc => h (Except.error.inj hc))
  | .ok _, .error _ => .isFalse (fun hc => Except.noConfusion hc)
  | .error _, .ok _ => .isFalse (fun hc => Except.noConfusion hc)

/-- The synthesized guest email `guest_{n}@example.com`. -/
def guestEmail (n : Nat) : String := "guest_" ++ toString n ++ "@example.com"

/-- `abs(hash(s)) % 1000000`, the whole-string hash derivation. -/
def hashDerive (env : Env) (s : String) : Nat := (env.pyHash s).natAbs % 1000000

/-- `select(User).where(User.email == e)` followed by `.first()`. -/
def lookupEmail (db : DB) (e : String) : Option User :=
  db.users.find? (fun u => u.email == e)

/-- Replace the first element satisfying `p` by its image under `f`
(the in-place mutation of the single ORM object the query returned). -/
def updateFirst (p : α → Bool) (f : α → α) : List α → List α
  | [] => []
  | x :: xs => if p x then f x :: xs else x :: updateFirst p f xs

/-- Remove the first element satisfying `p` (`session.delete` of the
object the query returned). -/
def removeFirst (p : α → Bool) : List α → List α
  | [] => []
  | x :: xs => if p x then xs else x :: removeFirst p xs

/-! ## `MockAuthService` and the task tools (`mcp_server/server.py`) -/

/-- `MockAuthService.validate_user`: guests are always trusted, anything
else must parse as a strictly positive integer. -/
def validate_user (user_id : String) : Bool :=
  if containsGuest user_id then true
  else
    match pyInt user_id with
    | some n => decide (0 < n)
    | none => false

/-- `TodoMCPTools._get_user_id_for_guest`: resolve a guest handle via the
`guest_(\d+)` regex and the digits-derived email, falling back to the
whole-string hash derivation before failing. -/
def get_user_id_for_guest (env : Env) (db : DB) (guest_user_id : String) : Except Err Int :=
  match extractGuestNum guest_user_id.data with
  | some gnum =>
    match lookupEmail db (guestEmail (gnum % 1000000)) with
    | some u => .ok u.id
    | none =>
      match lookupEmail db (guestEmail (hashDerive env guest_user_id)) with
      | some u => .ok u.id
      | none => .error (.guestNotFound guest_user_id)
  | none => .error (.invalidGuestFormat guest_user_id)

/-- The inline guest resolution repeated verbatim in `delete_task` and
`update_task`: first digit run anywhere (regex `(\d+)`), primary lookup
only, no hash fallback. -/
def resolveGuestByAnyDigits (db : DB) (user_id : String) : Except Err Int :=
  match firstDigitVal user_id with
  | some d =>
    match lookupEmail db (guestEmail (d % 1000000)) with
    | some u => .ok u.id
    | none => .error (.guestNotFound user_id)
  | none => .error (.invalidGuestFormat user_id)

/-- The user-resolution preamble shared by `add_task`, `list_tasks` and
`complete_task`: guest handles go through `_get_user_id_for_guest`,
anything else through `int(user_id)`. -/
def resolveUserId (env : Env) (db : DB) (user_id : String) : Except Err Int :=
  if containsGuest user_id then get_user_id_for_guest env db user_id
  else
    match pyInt user_id with
    | some n => .ok n
    | none => .error .invalidUserIdFormat

/-- The user-resolution preamble inlined in `delete_task`/`update_task`. -/
def resolveUserIdDU (db : DB) (user_id : String) : Except Err Int :=
  if containsGuest user_id then resolveGuestByAnyDigits db user_id
  else
    match pyInt user_id with
    | some n => .ok n
    | none => .error .invalidUserIdFormat

/-- Result mapping of `add_task`. -/
structure AddResult where
  task_id : Int
  status : String
  title : String
  description : String
  completed : Bool
deriving DecidableEq

/-- `TodoMCPTools.add_task`. -/
def add_task (env : Env) (db : DB) (user_id title description : String) :
    Except Err (AddResult × DB) :=
  if validate_user user_id = false then .error (.invalidUser user_id)
  else
    match resolveUserId env db user_id with
    | .error e => .error e
    | .ok uid =>
      let t : Task := ⟨db.nextTaskId, uid, title, description, false⟩
      .ok (⟨t.id, "created", t.title, t.description, t.completed⟩,
           { db with tasks := db.tasks ++ [t], nextTaskId := db.nextTaskId + 1 })

/-- One row of the `list_tasks` result. -/
structure ListItem where
  id : Int
  title : String
  description : String
  completed : Bool
  user_id : Int
deriving DecidableEq

/-- `TodoMCPTools.list_tasks`. -/
def list_tasks (env : Env) (db : DB) (user_id status : String) :
    Except Err (List ListItem) :=
  if validate_user user_id = false then .error (.invalidUser user_id)
  else
    match resolveUserId env db user_id with
    | .error e => .error e
    | .ok uid =>
      let base := db.tasks.filter (fun t => t.user_id == uid)
      let filtered :=
        if status = "pending" then base.filter (fun t => t.completed == false)
        else if status = "completed" then base.filter (fun t => t.completed == true)
        else base
      .ok (filtered.map (fun t => ⟨t.id, t.title, t.description, t.completed, t.user_id⟩))

/-- Result mapping of `complete_task`. -/
structure CompleteResult where
  task_id : Int
  status : String
  title : String
deriving DecidableEq

/-- The id-conversion preamble of `complete_task`: resolve the user
(guest or numeric) and convert `task_id` with `int(...)`. -/
def completeResolveIds (env : Env) (db : DB) (user_id task_id : String) :
    Except Err (Int × Int) :=
  if containsGuest user_id then
    match get_user_id_for_guest env db user_id with
    | .error e => .error e
    | .ok uid =>
      match pyInt task_id with
      | some tid => .ok (uid, tid)
      | none => .error .intParseError
  else
    match pyInt user_id, pyInt task_id with
    | some uid, some tid => .ok (uid, tid)
    | _, _ => .error .invalidIdsFormat

/-- `TodoMCPTools.complete_task`. -/
def complete_task (env : Env) (db : DB) (user_id task_id : String) :
    Except Err (CompleteResult × DB) :=
  if validate_user user_id = false then .error (.invalidUser user_id)
  else
    match completeResolveIds env db user_id task_id with
    | .error e => .error e
    | .ok (uid, tid) =>
      match db.tasks.find? (fun t => t.id == tid && t.user_id == uid) with
      | none => .error (.taskIdNotFound task_id user_id)
      | some t =>
        let tasks' := updateFirst (fun x => x.id == tid && x.user_id == uid)
          (fun x => { x with completed := true }) db.tasks
        .ok (⟨t.id, "completed", t.title⟩, { db with tasks := tasks' })

/-- Python `a or b` on optional strings: `a` unless it is `None` or
empty. -/
def pyOr (a b : Option String) : Option String :=
  match a with
  | some s => if s.isEmpty then b else some s
  | none => b

/-- The title predicate `delete_task` queries with:
`Task.title.ilike(f"%{escaped_title}%")` after escaping `%` and `_`. -/
def deleteTitleMatch (locator title : String) : Bool :=
  ilike title ("%" ++ escapeLike locator ++ "%")

/-- The title predicate `update_task` queries with:
`Task.title.ilike(f"%{task_title}%")`, unescaped. -/
def updateTitleMatch (locator title : String) : Bool :=
  ilike title ("%" ++ locator ++ "%")

/-- Result mapping of `delete_task`. -/
structure DeleteResult where
  task_id : Int
  title : String
  status : String
deriving DecidableEq

/-- `TodoMCPTools.delete_task`, with one argument per parameter the code
reads from the params mapping (absent keys are `none`). -/
def delete_task (_env : Env) (db : DB) (user_id : String)
    (task_id title task_name name task_title : Option String) :
    Except Err (DeleteResult × DB) :=
  let locator := pyOr title (pyOr task_name (pyOr name task_title))
  if validate_user user_id = false then .error (.invalidUser user_id)
  else
    match resolveUserIdDU db user_id with
    | .error e => .error e
    | .ok uid =>
      match task_id with
      | some tids =>
        match pyInt tids with
        | none => .error .invalidTaskIdFormat
        | some tid =>
          match db.tasks.find? (fun t => t.id == tid && t.user_id == uid) with
          | none => .error (.taskIdNotFound tids user_id)
          | some t =>
            let tasks' := removeFirst (fun x => x.id == tid && x.user_id == uid) db.tasks
            .ok (⟨t.id, t.title, "deleted"⟩, { db with tasks := tasks' })
      | none =>
        match locator with
        | some ttl =>
          match db.tasks.find? (fun t => deleteTitleMatch ttl t.title && t.user_id == uid) with
          | none => .error (.titleNotFound ttl user_id)
          | some t =>
            let tasks' := removeFirst
              (fun x => deleteTitleMatch ttl x.title && x.user_id == uid) db.tasks
            .ok (⟨t.id, t.title, "deleted"⟩, { db with tasks := tasks' })
        | none => .error .missingIdentifier

/-- Result mapping of `update_task`. -/
structure UpdateResult where
  task_id : Int
  status : String
  title : String
  description : String
deriving DecidableEq

/-- `TodoMCPTools.update_task`, with one argument per parameter the code
reads from the params mapping (absent keys are `none`). -/
def update_task (_env : Env) (db : DB) (user_id : String)
    (task_id title_to_find task_name name task_title title
     new_title new_description description : Option String) :
    Except Err (UpdateResult × DB) :=
  let locator := pyOr title_to_find (pyOr task_name (pyOr name (pyOr task_title title)))
  let newTitle := pyOr new_title title
  let newDesc := pyOr new_description description
  if validate_user user_id = false then .error (.invalidUser user_id)
  else
    match resolveUserIdDU db user_id with
    | .error e => .error e
    | .ok uid =>
      match task_id with
      | some tids =>
        match pyInt tids with
        | none => .error .invalidTaskIdFormat
        | some tid =>
          match db.tasks.find? (fun t => t.id == tid && t.user_id == uid) with
          | none => .error (.taskIdNotFound tids user_id)
          | some t =>
            let t' : Task := { t with title := newTitle.getD t.title,
                                      description := newDesc.getD t.description }
            let tasks' := updateFirst (fun x => x.id == tid && x.user_id == uid)
              (fun x => { x with title := newTitle.getD x.title,
                                 description := newDesc.getD x.description }) db.tasks
            .ok (⟨t'.id, "updated", t'.title, t'.description⟩, { db with tasks := tasks' })
      | none =>
        match locator with
        | some ttl =>
          match db.tasks.find? (fun t => updateTitleMatch ttl t.title && t.user_id == uid) with
          | none => .error (.titleNotFound ttl user_id)
          | some t =>
            let t' : Task := { t with title := newTitle.getD t.title,
                                      description := newDesc.getD t.description }
            let tasks' := updateFirst (fun x => updateTitleMatch ttl x.title && x.user_id == uid)
              (fun x => { x with title := newTitle.getD x.title,
                                 description := newDesc.getD x.description }) db.tasks
            .ok (⟨t'.id, "updated", t'.title, t'.description⟩, { db with tasks := tasks' })
        | none => .error .missingIdentifier

/-! ## `ChatService` (`services/chat_service.py`) -/

/-- The lookup-or-create body shared by both branches of
`_ensure_guest_user_exists`: look up `guest_{gh}@example.com`, else insert
a fresh active user with that email, the given username and the hashed
placeholder password. -/
def lookupOrCreate (env : Env) (db : DB) (gh : Nat) (uname : String) : Int × DB :=
  match lookupEmail db (guestEmail gh) with
  | some u => (u.id, db)
  | none =>
    let u : User := ⟨db.nextUserId, guestEmail gh, uname,
                     env.pwHash "guest_default_password", true⟩
    (u.id, { db with users := db.users ++ [u], nextUserId := db.nextUserId + 1 })

/-- `ChatService._ensure_guest_user_exists`: the creating variant of
identity resolution; total, returns the resolved id and the possibly
extended store. -/
def ensure_guest_user_exists (env : Env) (db : DB) (user_id_str : String) : Int × DB :=
  if containsGuest user_id_str then
    lookupOrCreate env db (hashDerive env user_id_str)
      ("guest_" ++ toString (hashDerive env user_id_str))
  else
    match pyInt user_id_str with
    | some n => (n, db)
    | none =>
      lookupOrCreate env db (hashDerive env user_id_str)
        ("user_" ++ toString (hashDerive env user_id_str))

/-- `ChatService.get_conversation`: owner-scoped conversation lookup. -/
def get_conversation (env : Env) (db : DB) (conversation_id : Int) (user_id : String) :
    Option Conversation × DB :=
  ((ensure_guest_user_exists env db user_id).2.convs.find?
    (fun c => c.id == conversation_id && c.user_id == (ensure_guest_user_exists env db user_id).1),
   (ensure_guest_user_exists env db user_id).2)

instance : DecidableRel (fun a b : Message => a.created_at ≤ b.created_at) :=
  fun a b => Nat.decLe a.created_at b.created_at

/-- `ChatService.get_conversation_history`: owner-scoped messages of a
conversation, ordered by `created_at` ascending, truncated to `limit`. -/
def get_conversation_history (env : Env) (db : DB) (conversation_id : Int)
    (user_id : String) (limit : Nat) : List Message × DB :=
  ((((ensure_guest_user_exists env db user_id).2.msgs.filter
      (fun m => m.conversation_id == conversation_id &&
        m.user_id == (ensure_guest_user_exists env db user_id).1)).insertionSort
      (fun a b => a.created_at ≤ b.created_at)).take limit,
   (ensure_guest_user_exists env db user_id).2)

instance : IsTotal Message (fun a b : Message => a.created_at ≤ b.created_at) :=
  ⟨fun a b => Nat.le_total a.created_at b.created_at⟩

instance : IsTrans Message (fun a b : Message => a.created_at ≤ b.created_at) :=
  ⟨fun _ _ _ hab hbc => Nat.le_trans hab hbc⟩

/-! ## Concrete fixtures used to evaluate the operations -/

/-- A concrete environment: every string hashes to `7`. -/
def env0 : Env := ⟨fun _ => 7, fun _ => "pw"⟩

/-- An empty store. -/
def db0 : DB := ⟨[], [], [], [], 1, 1⟩

/-- A store holding only the hash-derived guest user `guest_7@example.com`. -/
def dbH7 : DB := ⟨[⟨1, "guest_7@example.com", "g7", "pw", true⟩], [], [], [], 2, 1⟩

/-- A store holding the digits-derived guest user `guest_42@example.com`
and one of their tasks. -/
def dbG42 : DB :=
  ⟨[⟨1, "guest_42@example.com", "g42", "pw", true⟩], [⟨1, 1, "T", "", false⟩], [], [], 2, 2⟩

/-- A store with a task titled `Old` owned by user 1. -/
def dbOld : DB := ⟨[], [⟨1, 1, "Old", "D", false⟩], [], [], 1, 2⟩

/-- A store with a task titled `miXlk` owned by user 1. -/
def dbMix : DB := ⟨[], [⟨1, 1, "miXlk", "", false⟩], [], [], 1, 2⟩

/-- A store with one conversation owned by user 1. -/
def dbConv : DB := ⟨[], [], [⟨1, 1, 0⟩], [], 1, 1⟩

/-- A store with one conversation and one message owned by user 1. -/
def dbMsg : DB := ⟨[], [], [⟨1, 1, 0⟩], [⟨1, 1, 1, "user", "hi", 5⟩], 1, 1⟩

/-- A store with one incomplete task owned by user 1. -/
def dbT : DB := ⟨[], [⟨1, 1, "T", "D", false⟩], [], [], 1, 2⟩

/-- `dbT` after completing its task. -/
def dbT' : DB := ⟨[], [⟨1, 1, "T", "D", true⟩], [], [], 1, 2⟩

/-! ## Helper lemmas: characters, digits, parsing -/

theorem data_mk (l : List Char) : (⟨l⟩ : String).data = l := rfl

theorem lowerChar_eq_percent (c : Char) : lowerChar c = '%' ↔ c = '%' := by
  unfold lowerChar; split <;> simp_all

theorem lowerChar_eq_underscore (c : Char) : lowerChar c = '_' ↔ c = '_' := by
  unfold lowerChar; split <;> simp_all

theorem lowerChar_eq_backslash (c : Char) : lowerChar c = '\\' ↔ c = '\\' := by
  unfold lowerChar; split <;> simp_all

theorem lowerChar_eq_g (c : Char) : lowerChar c = 'g' → c = 'g' ∨ c = 'G' := by
  unfold lowerChar; split <;> simp_all

theorem dval_digitChar (d : Nat) (h : d < 10) : dval (digitChar d) = d := by
  interval_cases d <;> decide

theorem isDigitChar_digitChar (d : Nat) (h : d < 10) : isDigitChar (digitChar d) = true := by
  interval_cases d <;> decide

theorem isDigitChar_not_space {c : Char} (h : isDigitChar c = true) : isSpaceChar c = false := by
  rcases Bool.eq_false_or_eq_true (isSpaceChar c) with hs | hs
  · exfalso
    have hmem : ((c = ' ' ∨ c = '\t') ∨ c = '\n') ∨ c = '\r' := by
      simpa [isSpaceChar] using hs
    rcases hmem with ((rfl | rfl) | rfl) | rfl <;> exact absurd h (by decide)
  · exact hs

theorem isDigitChar_ne_plus {c : Char} (h : isDigitChar c = true) : c ≠ '+' := by
  intro hc; subst hc; exact absurd h (by decide)

theorem isDigitChar_ne_minus {c : Char} (h : isDigitChar c = true) : c ≠ '-' := by
  intro hc; subst hc; exact absurd h (by decide)

theorem natToDigitsF_stable : ∀ f g n, n < f → n < g → natToDigitsF f n = natToDigitsF g n := by
  intro f
  induction f with
  | zero => intro g n h _; omega
  | succ f ih =>
    intro g n hf hg
    cases g with
    | zero => omega
    | succ g =>
      by_cases h10 : n < 10
      · simp [natToDigitsF, h10]
      · simp only [natToDigitsF, h10, if_false]
        rw [ih g (n / 10) (by omega) (by omega)]

theorem natToDigitsF_succ (f n : Nat) :
    natToDigitsF (f + 1) n =
      if n < 10 then [digitChar n] else natToDigitsF f (n / 10) ++ [digitChar (n % 10)] := rfl

theorem natToDigits_eq (n : Nat) :
    natToDigits n =
      if n < 10 then [digitChar n] else natToDigits (n / 10) ++ [digitChar (n % 10)] := by
  unfold natToDigits
  rw [natToDigitsF_succ]
  by_cases h10 : n < 10
  · rw [if_pos h10, if_pos h10]
  · rw [if_neg h10, if_neg h10,
      natToDigitsF_stable n (n / 10 + 1) (n / 10) (by omega) (by omega)]

theorem natToDigits_digits (n : Nat) : ∀ c ∈ natToDigits n, isDigitChar c = true := by
  induction n using Nat.strong_induction_on with
  | _ n ih =>
    rw [natToDigits_eq]
    by_cases h10 : n < 10
    · simp only [h10, if_true]
      intro c hc
      rw [List.mem_singleton] at hc
      subst hc
      exact isDigitChar_digitChar n h10
    · simp only [h10, if_false]
      intro c hc
      rcases List.mem_append.mp hc with h | h
      · exact ih (n / 10) (by omega) c h
      · rw [List.mem_singleton] at h
        subst h
        exact isDigitChar_digitChar _ (Nat.mod_lt _ (by omega))

theorem digitsToNat_append_digit (l : List Char) (c : Char) :
    digitsToNat (l ++ [c]) = 10 * digitsToNat l + dval c := by
  simp [digitsToNat, List.foldl_append]

theorem digitsToNat_natToDigits (n : Nat) : digitsToNat (natToDigits n) = n := by
  induction n using Nat.strong_induction_on with
  | _ n ih =>
    rw [natToDigits_eq]
    by_cases h10 : n < 10
    · simp only [h10, if_true]
      simp [digitsToNat, dval_digitChar n h10]
    · simp only [h10, if_false]
      rw [digitsToNat_append_digit, ih (n / 10) (by omega),
        dval_digitChar _ (Nat.mod_lt _ (by omega))]
      omega

theorem natToDigits_ne_nil (n : Nat) : natToDigits n ≠ [] := by
  rw [natToDigits_eq]
  by_cases h10 : n < 10 <;> simp [h10]

theorem dropWhile_eq_self_of {p : Char → Bool} {l : List Char}
    (h : ∀ c ∈ l, p c = false) : l.dropWhile p = l := by
  cases l with
  | nil => rfl
  | cons c cs => simp [List.dropWhile_cons, h c (by simp)]

theorem stripWS_eq_self {l : List Char} (h : ∀ c ∈ l, isSpaceChar c = false) :
    stripWS l = l := by
  unfold stripWS
  rw [dropWhile_eq_self_of h,
    dropWhile_eq_self_of (fun c hc => h c (List.mem_reverse.mp hc)),
    List.reverse_reverse]

theorem parseDigits_of_all {l : List Char} (hne : l ≠ [])
    (hd : ∀ c ∈ l, isDigitChar c = true) : parseDigits l = some (digitsToNat l) := by
  unfold parseDigits
  rw [if_neg, if_pos]
  · exact List.all_eq_true.mpr hd
  · simpa [List.isEmpty_iff] using hne

theorem pyInt_intToStr (n : Int) : pyInt (intToStr n) = some n := by
  unfold pyInt intToStr
  by_cases hn : n < 0
  · rw [if_pos hn, data_mk]
    have hstrip : stripWS ('-' :: natToDigits n.natAbs) = '-' :: natToDigits n.natAbs := by
      apply stripWS_eq_self
      intro c hc
      rcases List.mem_cons.mp hc with rfl | h
      · decide
      · exact isDigitChar_not_space (natToDigits_digits _ c h)
    rw [hstrip]
    unfold pyIntL
    rw [if_neg (by simp), if_pos (by simp)]
    rw [List.tail_cons,
      parseDigits_of_all (natToDigits_ne_nil _) (natToDigits_digits _),
      digitsToNat_natToDigits]
    have hv : -((n.natAbs : Nat) : Int) = n := by omega
    rw [show Option.map (fun m : Nat => -(m : Int)) (some n.natAbs) =
        some (-((n.natAbs : Nat) : Int)) from rfl, hv]
  · rw [if_neg hn, data_mk]
    have hstrip : stripWS (natToDigits n.toNat) = natToDigits n.toNat :=
      stripWS_eq_self (fun c hc => isDigitChar_not_space (natToDigits_digits _ c hc))
    rw [hstrip]
    unfold pyIntL
    obtain ⟨c, cs, hl⟩ := List.exists_cons_of_ne_nil (natToDigits_ne_nil n.toNat)
    have hc : isDigitChar c = true := natToDigits_digits n.toNat c (by rw [hl]; simp)
    rw [hl]
    rw [if_neg (by simp [isDigitChar_ne_plus hc]), if_neg (by simp [isDigitChar_ne_minus hc])]
    rw [← hl, parseDigits_of_all (natToDigits_ne_nil _) (natToDigits_digits _),
      digitsToNat_natToDigits]
    have hv : ((n.toNat : Nat) : Int) = n := by omega
    rw [show Option.map (fun m : Nat => (m : Int)) (some n.toNat) =
        some ((n.toNat : Nat) : Int) from rfl, hv]

theorem mem_of_containsSub_cons {p : Char} {ps l : List Char}
    (h : containsSub (p :: ps) l = true) : p ∈ l := by
  induction l with
  | nil => simp [containsSub, isPrefixL] at h
  | cons c cs ih =>
    rw [containsSub, Bool.or_eq_true] at h
    rcases h with h1 | h2
    · rw [isPrefixL, Bool.and_eq_true, beq_iff_eq] at h1
      rw [h1.1]
      exact List.mem_cons_self c cs
    · exact List.mem_cons_of_mem _ (ih h2)

theorem intToStr_chars (n : Int) :
    ∀ c ∈ (intToStr n).data, isDigitChar c = true ∨ c = '-' := by
  unfold intToStr
  by_cases hn : n < 0
  · simp only [hn, if_true, data_mk]
    intro c hc
    rcases List.mem_cons.mp hc with rfl | h
    · exact Or.inr rfl
    · exact Or.inl (natToDigits_digits _ c h)
  · simp only [hn, if_false, data_mk]
    intro c hc
    exact Or.inl (natToDigits_digits _ c hc)

theorem containsGuest_intToStr (n : Int) : containsGuest (intToStr n) = false := by
  rcases Bool.eq_false_or_eq_true (containsGuest (intToStr n)) with h | h
  swap
  · exact h
  · exfalso
    unfold containsGuest at h
    have hg : 'g' ∈ (intToStr n).data.map lowerChar := mem_of_containsSub_cons h
    rcases List.mem_map.mp hg with ⟨c, hc, hlc⟩
    rcases lowerChar_eq_g c hlc with rfl | rfl <;>
      rcases intToStr_chars n _ hc with hd | hd <;> exact absurd hd (by decide)

/-! ## Claim theorems -/

/-- Claim C3: `validate_user` (the `authorize` contract) returns `true`
exactly when the handle contains "guest" (case-insensitively) or parses as
a strictly positive integer; in particular it accepts `str(n)` for every
positive `n`, rejects it for every `n ≤ 0`, and accepts `"guest_123"`. -/
theorem C3_authorize :
    (∀ s : String, validate_user s = true ↔
      (containsGuest s = true ∨ ∃ n : Int, pyInt s = some n ∧ 0 < n)) ∧
    (∀ n : Int, 0 < n → validate_user (intToStr n) = true) ∧
    (∀ n : Int, n ≤ 0 → validate_user (intToStr n) = false) ∧
    validate_user "guest_123" = true := by
  have hval : ∀ n : Int, validate_user (intToStr n) = decide (0 < n) := by
    intro n
    unfold validate_user
    rw [if_neg (by simp [containsGuest_intToStr n]), pyInt_intToStr n]
  refine ⟨?_, ?_, ?_, by decide⟩
  · intro s
    unfold validate_user
    by_cases hg : containsGuest s
    · simp [hg]
    · simp only [hg, if_false]
      cases hp : pyInt s with
      | none => simp [hg]
      | some n => simp [hg]
  · intro n hn
    rw [hval n, decide_eq_true_eq]
    exact hn
  · intro n hn
    rw [hval n]
    simp only [decide_eq_false_iff_not]
    omega

/-- Witness for C3: the theorem applied at `5` and `-3`. -/
theorem C3_authorize_witness :
    validate_user (intToStr 5) = true ∧ validate_user (intToStr (-3)) = false :=
  ⟨C3_authorize.2.1 5 (by decide), C3_authorize.2.2.1 (-3) (by decide)⟩

/-! ## Helper lemmas: identity resolution and the store -/

theorem lookupOrCreate_found {env : Env} {db : DB} {gh : Nat} {un : String} {u : User}
    (hl : lookupEmail db (guestEmail gh) = some u) :
    lookupOrCreate env db gh un = (u.id, db) := by
  unfold lookupOrCreate; rw [hl]

theorem lookupOrCreate_create {env : Env} {db : DB} {gh : Nat} {un : String}
    (hl : lookupEmail db (guestEmail gh) = none) :
    lookupOrCreate env db gh un =
      (db.nextUserId,
       { db with
           users := db.users ++ [⟨db.nextUserId, guestEmail gh, un,
             env.pwHash "guest_default_password", true⟩],
           nextUserId := db.nextUserId + 1 }) := by
  unfold lookupOrCreate; rw [hl]

theorem lookupOrCreate_resolves (env : Env) (db : DB) (gh : Nat) (un : String) :
    ∃ u : User, u.email = guestEmail gh ∧
      u ∈ (lookupOrCreate env db gh un).2.users ∧
      (lookupOrCreate env db gh un).1 = u.id := by
  cases hl : lookupEmail db (guestEmail gh) with
  | some u =>
    rw [lookupOrCreate_found hl]
    have hl' : db.users.find? (fun x => x.email == guestEmail gh) = some u := hl
    have hpu := List.find?_some hl'
    rw [beq_iff_eq] at hpu
    exact ⟨u, hpu, List.mem_of_find?_eq_some hl', rfl⟩
  | none =>
    rw [lookupOrCreate_create hl]
    exact ⟨⟨db.nextUserId, guestEmail gh, un, env.pwHash "guest_default_password", true⟩,
      rfl, by simp, rfl⟩

theorem lookupOrCreate_preserves (env : Env) (db : DB) (gh : Nat) (un : String) :
    (lookupOrCreate env db gh un).2.tasks = db.tasks ∧
    (lookupOrCreate env db gh un).2.convs = db.convs ∧
    (lookupOrCreate env db gh un).2.msgs = db.msgs := by
  cases hl : lookupEmail db (guestEmail gh) with
  | some u => rw [lookupOrCreate_found hl]; exact ⟨rfl, rfl, rfl⟩
  | none => rw [lookupOrCreate_create hl]; exact ⟨rfl, rfl, rfl⟩

theorem ensure_preserves (env : Env) (db : DB) (h : String) :
    (ensure_guest_user_exists env db h).2.tasks = db.tasks ∧
    (ensure_guest_user_exists env db h).2.convs = db.convs ∧
    (ensure_guest_user_exists env db h).2.msgs = db.msgs := by
  unfold ensure_guest_user_exists
  by_cases hg : containsGuest h = true
  · rw [if_pos hg]
    exact lookupOrCreate_preserves env db _ _
  · rw [if_neg hg]
    cases hp : pyInt h with
    | some n => exact ⟨rfl, rfl, rfl⟩
    | none => exact lookupOrCreate_preserves env db _ _

theorem lookupOrCreate_idem (env : Env) (db : DB) (gh : Nat) (un un' : String) :
    (lookupOrCreate env (lookupOrCreate env db gh un).2 gh un').1
        = (lookupOrCreate env db gh un).1 ∧
    (lookupOrCreate env (lookupOrCreate env db gh un).2 gh un').2
        = (lookupOrCreate env db gh un).2 := by
  cases hl : lookupEmail db (guestEmail gh) with
  | some u =>
    rw [lookupOrCreate_found hl]
    show (lookupOrCreate env db gh un').1 = u.id ∧ (lookupOrCreate env db gh un').2 = db
    rw [lookupOrCreate_found hl]
    exact ⟨rfl, rfl⟩
  | none =>
    rw [lookupOrCreate_create hl]
    show (lookupOrCreate env
        { db with
            users := db.users ++ [⟨db.nextUserId, guestEmail gh, un,
              env.pwHash "guest_default_password", true⟩],
            nextUserId := db.nextUserId + 1 } gh un').1 = db.nextUserId ∧ _
    have hfind : lookupEmail
        { db with
            users := db.users ++ [⟨db.nextUserId, guestEmail gh, un,
              env.pwHash "guest_default_password", true⟩],
            nextUserId := db.nextUserId + 1 } (guestEmail gh) =
        some ⟨db.nextUserId, guestEmail gh, un, env.pwHash "guest_default_password", true⟩ := by
      show (db.users ++ [(⟨db.nextUserId, guestEmail gh, un,
          env.pwHash "guest_default_password", true⟩ : User)]).find?
          (fun x : User => x.email == guestEmail gh)
        = some ⟨db.nextUserId, guestEmail gh, un, env.pwHash "guest_default_password", true⟩
      rw [List.find?_append]
      have hl' : db.users.find? (fun x : User => x.email == guestEmail gh) = none := hl
      rw [hl']
      simp [List.find?]
    rw [lookupOrCreate_found hfind]
    exact ⟨rfl, rfl⟩

/-- Claim C7: resolving the same guest handle twice through the creating
variant returns the same id both times, leaves the store unchanged on the
second call, and (when the guest was absent) creates exactly one user row. -/
theorem C7_idempotent (env : Env) (db : DB) (h : String) (hg : containsGuest h = true) :
    ((ensure_guest_user_exists env (ensure_guest_user_exists env db h).2 h).1
        = (ensure_guest_user_exists env db h).1) ∧
    ((ensure_guest_user_exists env (ensure_guest_user_exists env db h).2 h).2
        = (ensure_guest_user_exists env db h).2) ∧
    (lookupEmail db (guestEmail (hashDerive env h)) = none →
      (ensure_guest_user_exists env db h).2.users.length = db.users.length + 1) := by
  have heq : ∀ d : DB, ensure_guest_user_exists env d h =
      lookupOrCreate env d (hashDerive env h) ("guest_" ++ toString (hashDerive env h)) := by
    intro d; unfold ensure_guest_user_exists; rw [if_pos hg]
  simp only [heq]
  obtain ⟨h1, h2⟩ := lookupOrCreate_idem env db (hashDerive env h)
    ("guest_" ++ toString (hashDerive env h)) ("guest_" ++ toString (hashDerive env h))
  refine ⟨h1, h2, ?_⟩
  intro hn
  rw [lookupOrCreate_create hn]
  simp

/-- Witness for C7: the theorem applied at `guest_1` over the empty store. -/
theorem C7_idempotent_witness :
    containsGuest "guest_1" = true ∧
    ((ensure_guest_user_exists env0 (ensure_guest_user_exists env0 db0 "guest_1").2 "guest_1").1
        = (ensure_guest_user_exists env0 db0 "guest_1").1) ∧
    (ensure_guest_user_exists env0 db0 "guest_1").2.users.length = db0.users.length + 1 :=
  ⟨by decide, (C7_idempotent env0 db0 "guest_1" (by decide)).1,
   (C7_idempotent env0 db0 "guest_1" (by decide)).2.2 (by decide)⟩

/-- Claim C6: for a handle without "guest", the creating resolver returns
the parsed integer directly; when parsing fails it falls back to the
whole-string hash derivation and still resolves to a user with the
hash-derived guest email instead of failing. -/
theorem C6_implicit_guest_fallback (env : Env) (db : DB) (h : String)
    (hg : containsGuest h = false) :
    (∀ n : Int, pyInt h = some n → ensure_guest_user_exists env db h = (n, db)) ∧
    (pyInt h = none →
      ∃ u : User, u.email = guestEmail (hashDerive env h) ∧
        u ∈ (ensure_guest_user_exists env db h).2.users ∧
        (ensure_guest_user_exists env db h).1 = u.id) := by
  constructor
  · intro n hp
    unfold ensure_guest_user_exists
    rw [if_neg (by simp [hg]), hp]
  · intro hp
    have heq : ensure_guest_user_exists env db h =
        lookupOrCreate env db (hashDerive env h) ("user_" ++ toString (hashDerive env h)) := by
      unfold ensure_guest_user_exists
      rw [if_neg (by simp [hg]), hp]
    rw [heq]
    exact lookupOrCreate_resolves env db _ _

/-- Witness for C6: the theorem applied at the non-numeric handle `abc`. -/
theorem C6_implicit_guest_fallback_witness :
    containsGuest "abc" = false ∧ pyInt "abc" = none ∧
    (∃ u : User, u.email = guestEmail (hashDerive env0 "abc") ∧
      u ∈ (ensure_guest_user_exists env0 db0 "abc").2.users ∧
      (ensure_guest_user_exists env0 db0 "abc").1 = u.id) :=
  ⟨by decide, by decide,
   (C6_implicit_guest_fallback env0 db0 "abc" (by decide)).2 (by decide)⟩

/-- Claim C8: `get_conversation` returns a conversation only when it is in
the store with the requested id and owned by the resolved user; otherwise
it returns `none`. -/
theorem C8_get_conversation (env : Env) (db : DB) (cid : Int) (h : String) :
    (∀ c : Conversation, (get_conversation env db cid h).1 = some c →
      c ∈ db.convs ∧ c.id = cid ∧ c.user_id = (ensure_guest_user_exists env db h).1) ∧
    ((¬ ∃ c ∈ db.convs, c.id = cid ∧ c.user_id = (ensure_guest_user_exists env db h).1) →
      (get_conversation env db cid h).1 = none) := by
  have hconvs := (ensure_preserves env db h).2.1
  constructor
  · intro c hc
    replace hc : (ensure_guest_user_exists env db h).2.convs.find?
        (fun x : Conversation =>
          x.id == cid && x.user_id == (ensure_guest_user_exists env db h).1)
        = some c := hc
    have hpc := List.find?_some hc
    have hmem := List.mem_of_find?_eq_some hc
    rw [hconvs] at hmem
    rw [Bool.and_eq_true, beq_iff_eq, beq_iff_eq] at hpc
    exact ⟨hmem, hpc.1, hpc.2⟩
  · intro hne
    show (ensure_guest_user_exists env db h).2.convs.find?
        (fun x : Conversation =>
          x.id == cid && x.user_id == (ensure_guest_user_exists env db h).1)
        = none
    rw [List.find?_eq_none]
    intro x hx
    rw [hconvs] at hx
    simp only [Bool.and_eq_true, beq_iff_eq, not_and]
    intro h1 h2
    exact hne ⟨x, hx, h1, h2⟩

/-- Witness for C8: the theorem applied at a store holding exactly the
requested conversation. -/
theorem C8_get_conversation_witness :
    (⟨1, 1, 0⟩ : Conversation) ∈ dbConv.convs ∧ (1 : Int) = 1 ∧
      (1 : Int) = (ensure_guest_user_exists env0 dbConv "1").1 :=
  (C8_get_conversation env0 dbConv 1 "1").1 ⟨1, 1, 0⟩ (by decide)

/-- Claim C9: `get_conversation_history` returns only messages of the
requested conversation owned by the resolved user, at most `limit` of
them, in ascending `created_at` order. -/
theorem C9_history (env : Env) (db : DB) (cid : Int) (h : String) (limit : Nat) :
    (∀ m ∈ (get_conversation_history env db cid h limit).1,
      m.conversation_id = cid ∧ m.user_id = (ensure_guest_user_exists env db h).1) ∧
    (get_conversation_history env db cid h limit).1.length ≤ limit ∧
    List.Sorted (fun a b : Message => a.created_at ≤ b.created_at)
      (get_conversation_history env db cid h limit).1 := by
  refine ⟨?_, ?_, ?_⟩
  · intro m hm
    replace hm : m ∈ ((((ensure_guest_user_exists env db h).2.msgs.filter
        (fun x : Message => x.conversation_id == cid &&
          x.user_id == (ensure_guest_user_exists env db h).1)).insertionSort
        (fun a b : Message => a.created_at ≤ b.created_at)).take limit) := hm
    have hm2 := List.take_subset _ _ hm
    rw [List.mem_insertionSort] at hm2
    have hmf := List.mem_filter.mp hm2
    have := hmf.2
    rw [Bool.and_eq_true, beq_iff_eq, beq_iff_eq] at this
    exact this
  · show (List.take limit _).length ≤ limit
    rw [List.length_take]
    exact min_le_left _ _
  · show List.Sorted _ (List.take limit _)
    apply List.Pairwise.sublist (List.take_sublist _ _)
    exact List.sorted_insertionSort _ _

/-- Witness for C9: the theorem applied at a store holding one matching
message. -/
theorem C9_history_witness :
    (⟨1, 1, 1, "user", "hi", 5⟩ : Message).conversation_id = 1 ∧
    (⟨1, 1, 1, "user", "hi", 5⟩ : Message).user_id =
      (ensure_guest_user_exists env0 dbMsg "1").1 :=
  (C9_history env0 dbMsg 1 "1" 50).1 ⟨1, 1, 1, "user", "hi", 5⟩ (by decide)

theorem find?_updateFirst_split {α : Type} {p : α → Bool} {f : α → α} {l : List α} {a : α}
    (h : l.find? p = some a) :
    ∃ l1 l2, l = l1 ++ a :: l2 ∧ updateFirst p f l = l1 ++ f a :: l2 := by
  induction l with
  | nil => cases h
  | cons x xs ih =>
    rw [List.find?_cons] at h
    cases hp : p x with
    | true =>
      rw [hp] at h
      obtain rfl := Option.some.inj h
      exact ⟨[], xs, by simp, by simp [updateFirst, hp]⟩
    | false =>
      rw [hp] at h
      obtain ⟨l1, l2, h1, h2⟩ := ih h
      exact ⟨x :: l1, l2, by simp [h1], by simp [updateFirst, hp, h2]⟩

/-- Claim C10: a successful `complete_task` changes exactly the completed
flag of the targeted task (to `true`): its other fields, every other task,
and every other table are unchanged. -/
theorem C10_complete_frame (env : Env) (db : DB) (uid tid : String)
    (r : CompleteResult) (db' : DB)
    (hok : complete_task env db uid tid = .ok (r, db')) :
    db'.users = db.users ∧ db'.convs = db.convs ∧ db'.msgs = db.msgs ∧
    db'.nextUserId = db.nextUserId ∧ db'.nextTaskId = db.nextTaskId ∧
    ∃ l1 t l2, db.tasks = l1 ++ t :: l2 ∧
      db'.tasks = l1 ++ { t with completed := true } :: l2 := by
  unfold complete_task at hok
  by_cases hv : validate_user uid = false
  · rw [if_pos hv] at hok; cases hok
  · rw [if_neg hv] at hok
    split at hok
    · cases hok
    · split at hok
      · cases hok
      · rename_i tk hfind
        injection hok with h1
        injection h1 with _ hdb
        subst hdb
        refine ⟨rfl, rfl, rfl, rfl, rfl, ?_⟩
        obtain ⟨l1, l2, hsplit, hupd⟩ := find?_updateFirst_split hfind
        exact ⟨l1, tk, l2, hsplit, hupd⟩

/-- Witness for C10: the theorem applied at a concrete successful
completion. -/
theorem C10_complete_frame_witness :
    dbT'.users = dbT.users ∧ dbT'.convs = dbT.convs ∧ dbT'.msgs = dbT.msgs ∧
    dbT'.nextUserId = dbT.nextUserId ∧ dbT'.nextTaskId = dbT.nextTaskId ∧
    ∃ l1 t l2, dbT.tasks = l1 ++ t :: l2 ∧
      dbT'.tasks = l1 ++ { t with completed := true } :: l2 :=
  C10_complete_frame env0 dbT "1" "1" ⟨1, "completed", "T"⟩ dbT' (by decide)

/-- Claim C4 counterexample: with `task_id` supplied, passing the
title-like parameter `title` to `update_task` changes the outcome (it is
taken as the new title), so title-like parameters are not all ignored. -/
theorem C4_counterexample :
    update_task env0 dbOld "1" (some "1") none none none none (some "X") none none none ≠
      update_task env0 dbOld "1" (some "1") none none none none none none none none := by
  decide

/-- Claim C4 amended: with `task_id` supplied, `delete_task` ignores all
title-like parameters, and `update_task` ignores the locator aliases
`title_to_find`, `task_name`, `name` and `task_title`; only `title` can
still affect the result, by doubling as the new title. -/
theorem C4_amended :
    (∀ (env : Env) (db : DB) (uid tid : String) (a b c d : Option String),
      delete_task env db uid (some tid) a b c d =
        delete_task env db uid (some tid) none none none none) ∧
    (∀ (env : Env) (db : DB) (uid tid : String) (ttf tn nm tt ti nt nd ds : Option String),
      update_task env db uid (some tid) ttf tn nm tt ti nt nd ds =
        update_task env db uid (some tid) none none none none ti nt nd ds) :=
  ⟨fun _ _ _ _ _ _ _ _ => rfl, fun _ _ _ _ _ _ _ _ _ _ _ _ => rfl⟩

/-- Claim C1 counterexample: over `dbH7` the primary digits-derived lookup
for `guest_42` misses but the hash-derived guest user exists, and the
shared resolver does find it via the secondary lookup; yet `delete_task`
and `update_task` fail with NotFound without attempting that fallback. -/
theorem C1_counterexample :
    get_user_id_for_guest env0 dbH7 "guest_42" = .ok 1 ∧
    delete_task env0 dbH7 "guest_42" (some "1") none none none none =
      .error (.guestNotFound "guest_42") ∧
    update_task env0 dbH7 "guest_42" (some "1") none none none none none none none none =
      .error (.guestNotFound "guest_42") := by
  decide

/-- Claim C1 amended: on the `add_task`/`list_tasks`/`complete_task` path
(`_get_user_id_for_guest`) a primary miss triggers the whole-string-hash
secondary lookup before NotFound; on the `delete_task`/`update_task` path
the resolver fails with NotFound right after the primary digits-derived
lookup, with no secondary attempt. -/
theorem C1_amended :
    (∀ (env : Env) (db : DB) (h : String) (gn : Nat) (u : User),
      extractGuestNum h.data = some gn →
      lookupEmail db (guestEmail (gn % 1000000)) = none →
      lookupEmail db (guestEmail (hashDerive env h)) = some u →
      get_user_id_for_guest env db h = .ok u.id) ∧
    (∀ (env : Env) (db : DB) (h : String) (gn : Nat),
      extractGuestNum h.data = some gn →
      lookupEmail db (guestEmail (gn % 1000000)) = none →
      lookupEmail db (guestEmail (hashDerive env h)) = none →
      get_user_id_for_guest env db h = .error (.guestNotFound h)) ∧
    (∀ (env : Env) (db : DB) (h : String) (fd : Nat)
        (tid a b c d : Option String),
      containsGuest h = true →
      firstDigitVal h = some fd →
      lookupEmail db (guestEmail (fd % 1000000)) = none →
      delete_task env db h tid a b c d = .error (.guestNotFound h)) ∧
    (∀ (env : Env) (db : DB) (h : String) (fd : Nat)
        (tid ttf tn nm tt ti nt nd ds : Option String),
      containsGuest h = true →
      firstDigitVal h = some fd →
      lookupEmail db (guestEmail (fd % 1000000)) = none →
      update_task env db h tid ttf tn nm tt ti nt nd ds =
        .error (.guestNotFound h)) := by
  have hres : ∀ (db : DB) (h : String) (fd : Nat), containsGuest h = true →
      firstDigitVal h = some fd →
      lookupEmail db (guestEmail (fd % 1000000)) = none →
      resolveUserIdDU db h = .error (.guestNotFound h) := by
    intro db h fd hg hfd hmiss
    unfold resolveUserIdDU resolveGuestByAnyDigits
    rw [if_pos hg, hfd]
    simp only [hmiss]
  have hval : ∀ h : String, containsGuest h = true → validate_user h = true := by
    intro h hg
    unfold validate_user
    rw [if_pos hg]
  refine ⟨?_, ?_, ?_, ?_⟩
  · intro env db h gn u hgn hmiss hu
    unfold get_user_id_for_guest
    rw [hgn]
    simp only [hmiss, hu]
  · intro env db h gn hgn hmiss hn
    unfold get_user_id_for_guest
    rw [hgn]
    simp only [hmiss, hn]
  · intro env db h fd tid a b c d hg hfd hmiss
    unfold delete_task
    rw [if_neg (by simp [hval h hg]), hres db h fd hg hfd hmiss]
  · intro env db h fd tid ttf tn nm tt ti nt nd ds hg hfd hmiss
    unfold update_task
    rw [if_neg (by simp [hval h hg]), hres db h fd hg hfd hmiss]

/-- Witness for C1 amended: applied at `guest_42` over `dbH7`. -/
theorem C1_amended_witness :
    get_user_id_for_guest env0 dbH7 "guest_42" = .ok ((1 : Int)) ∧
    delete_task env0 dbH7 "guest_42" none none none none none =
      .error (.guestNotFound "guest_42") :=
  ⟨C1_amended.1 env0 dbH7 "guest_42" 42 ⟨1, "guest_7@example.com", "g7", "pw", true⟩
     (by decide) (by decide) (by decide),
   C1_amended.2.2.1 env0 dbH7 "guest_42" 42 none none none none none
     (by decide) (by decide) (by decide)⟩

/-- Claim C2 counterexample: `guest42` contains "guest" and its first
digit run is `42`, and the digits-derived user `guest_42@example.com`
exists; the claim predicts every task tool resolves it, yet `list_tasks`
and `complete_task` fail with InvalidFormat (their regex needs a literal
`guest_` before the digits) while `delete_task` does resolve it. -/
theorem C2_counterexample :
    firstDigitVal "guest42" = some 42 ∧
    lookupEmail dbG42 (guestEmail 42) = some ⟨1, "guest_42@example.com", "g42", "pw", true⟩ ∧
    list_tasks env0 dbG42 "guest42" "all" = .error (.invalidGuestFormat "guest42") ∧
    complete_task env0 dbG42 "guest42" "1" = .error (.invalidGuestFormat "guest42") ∧
    delete_task env0 dbG42 "guest42" none (some "T") none none none =
      .ok (⟨1, "T", "deleted"⟩, { dbG42 with tasks := [] }) := by
  decide

/-- Claim C2 amended: `delete_task`/`update_task` extract the first run of
digits appearing anywhere in the guest handle (InvalidFormat when there is
none) and look up `guest_{digits % 1000000}@example.com`; `add_task`,
`list_tasks` and `complete_task` instead require a literal `guest_`
immediately followed by digits (case-sensitively) and extract that run,
failing with InvalidFormat otherwise, as `guest42` shows. -/
theorem C2_amended :
    (∀ (db : DB) (h : String), containsGuest h = true → firstDigitVal h = none →
      resolveUserIdDU db h = .error (.invalidGuestFormat h)) ∧
    (∀ (db : DB) (h : String) (ds : Nat) (u : User),
      containsGuest h = true → firstDigitVal h = some ds →
      lookupEmail db (guestEmail (ds % 1000000)) = some u →
      resolveUserIdDU db h = .ok u.id) ∧
    (∀ (env : Env) (db : DB) (h : String), extractGuestNum h.data = none →
      get_user_id_for_guest env db h = .error (.invalidGuestFormat h)) ∧
    (∀ (env : Env) (db : DB) (h : String) (gn : Nat) (u : User),
      extractGuestNum h.data = some gn →
      lookupEmail db (guestEmail (gn % 1000000)) = some u →
      get_user_id_for_guest env db h = .ok u.id) ∧
    (extractGuestNum "guest42".data = none ∧ firstDigitVal "guest42" = some 42) := by
  refine ⟨?_, ?_, ?_, ?_, by decide⟩
  · intro db h hg hfd
    unfold resolveUserIdDU resolveGuestByAnyDigits
    rw [if_pos hg, hfd]
  · intro db h ds u hg hfd hu
    unfold resolveUserIdDU resolveGuestByAnyDigits
    rw [if_pos hg, hfd]
    simp only [hu]
  · intro env db h hx
    unfold get_user_id_for_guest
    rw [hx]
  · intro env db h gn u hx hu
    unfold get_user_id_for_guest
    rw [hx]
    simp only [hu]

/-- Witness for C2 amended: applied at `guest42` over `dbG42`. -/
theorem C2_amended_witness :
    resolveUserIdDU dbG42 "guest42" = .ok ((1 : Int)) ∧
    get_user_id_for_guest env0 dbG42 "guest42" = .error (.invalidGuestFormat "guest42") :=
  ⟨C2_amended.2.1 dbG42 "guest42" 42 ⟨1, "guest_42@example.com", "g42", "pw", true⟩
     (by decide) (by decide) (by decide),
   C2_amended.2.2.1 env0 dbG42 "guest42" (by decide)⟩

/-! ## Helper lemmas: `LIKE` matching and escaping -/

theorem likeMatchF_succ_nil (f : Nat) (s : List Char) :
    likeMatchF (f + 1) [] s = s.isEmpty := rfl

theorem likeMatchF_succ_cons (f : Nat) (p : Char) (ps s : List Char) :
    likeMatchF (f + 1) (p :: ps) s =
      (if p = '%' then
        likeMatchF f ps s ||
          (match s with
           | [] => false
           | _ :: s' => likeMatchF f (p :: ps) s')
      else if p = '\\' then
        match ps, s with
        | q :: ps', c :: s' => (q == c) && likeMatchF f ps' s'
        | _, _ => false
      else
        match s with
        | [] => false
        | c :: s' =>
          if p = '_' then likeMatchF f ps s'
          else (p == c) && likeMatchF f ps s') := rfl

theorem likeMatchF_stable : ∀ f g ps s, ps.length + s.length < f →
    ps.length + s.length < g → likeMatchF f ps s = likeMatchF g ps s := by
  intro f
  induction f with
  | zero => intro g ps s hf _; omega
  | succ f ih =>
    intro g ps s hf hg
    cases g with
    | zero => omega
    | succ g =>
      cases ps with
      | nil => rw [likeMatchF_succ_nil, likeMatchF_succ_nil]
      | cons p ps =>
        rw [likeMatchF_succ_cons, likeMatchF_succ_cons]
        simp only [List.length_cons] at hf hg
        by_cases hp : p = '%'
        · rw [if_pos hp, if_pos hp]
          have h1 : likeMatchF f ps s = likeMatchF g ps s := by
            apply ih <;> omega
          rw [h1]
          cases s with
          | nil => rfl
          | cons c s' =>
            simp only [List.length_cons] at hf hg
            have h2 : likeMatchF f (p :: ps) s' = likeMatchF g (p :: ps) s' := by
              apply ih <;> simp only [List.length_cons] <;> omega
            show (likeMatchF g ps (c :: s') || likeMatchF f (p :: ps) s') =
              (likeMatchF g ps (c :: s') || likeMatchF g (p :: ps) s')
            rw [h2]
        · rw [if_neg hp, if_neg hp]
          by_cases hb : p = '\\'
          · rw [if_pos hb, if_pos hb]
            cases ps with
            | nil => cases s <;> rfl
            | cons q ps' =>
              cases s with
              | nil => rfl
              | cons c s' =>
                simp only [List.length_cons] at hf hg
                have h2 : likeMatchF f ps' s' = likeMatchF g ps' s' := by
                  apply ih <;> omega
                show ((q == c) && likeMatchF f ps' s') = ((q == c) && likeMatchF g ps' s')
                rw [h2]
          · rw [if_neg hb, if_neg hb]
            cases s with
            | nil => rfl
            | cons c s' =>
              simp only [List.length_cons] at hf hg
              have h2 : likeMatchF f ps s' = likeMatchF g ps s' := by
                apply ih <;> omega
              show (if p = '_' then likeMatchF f ps s' else (p == c) && likeMatchF f ps s') =
                (if p = '_' then likeMatchF g ps s' else (p == c) && likeMatchF g ps s')
              rw [h2]

theorem likeMatch_eq_likeMatchF {f : Nat} (ps s : List Char)
    (hf : ps.length + s.length < f) : likeMatch ps s = likeMatchF f ps s :=
  likeMatchF_stable (ps.length + s.length + 1) f ps s (by omega) hf

theorem likeMatch_nil (s : List Char) : likeMatch [] s = s.isEmpty := rfl

theorem likeMatch_perc (ps s : List Char) :
    likeMatch ('%' :: ps) s =
      (likeMatch ps s ||
        (match s with | [] => false | _ :: s' => likeMatch ('%' :: ps) s')) := by
  show likeMatchF (('%' :: ps).length + s.length + 1) ('%' :: ps) s = _
  rw [(by simp only [List.length_cons]; omega :
    ('%' :: ps).length + s.length + 1 = ps.length + s.length + 1 + 1)]
  rw [likeMatchF_succ_cons, if_pos rfl]
  congr 1
  cases s with
  | nil => rfl
  | cons c s' =>
    show likeMatchF (ps.length + (c :: s').length + 1) ('%' :: ps) s' =
      likeMatch ('%' :: ps) s'
    rw [likeMatchF_stable (ps.length + (c :: s').length + 1)
      (('%' :: ps).length + s'.length + 1) ('%' :: ps) s'
      (by simp only [List.length_cons]; omega) (by simp only [List.length_cons]; omega)]
    rfl

theorem likeMatch_esc (q : Char) (ps : List Char) (c : Char) (s : List Char) :
    likeMatch ('\\' :: q :: ps) (c :: s) = ((q == c) && likeMatch ps s) := by
  show likeMatchF (('\\' :: q :: ps).length + (c :: s).length + 1) ('\\' :: q :: ps) (c :: s) = _
  rw [(by simp only [List.length_cons]; omega :
    ('\\' :: q :: ps).length + (c :: s).length + 1 = ps.length + s.length + 3 + 1)]
  rw [likeMatchF_succ_cons, if_neg (by decide), if_pos rfl]
  show ((q == c) && likeMatchF (ps.length + s.length + 3) ps s) = ((q == c) && likeMatch ps s)
  rw [likeMatchF_stable (ps.length + s.length + 3) (ps.length + s.length + 1) ps s
    (by omega) (by omega)]
  rfl

theorem likeMatch_underscore (ps : List Char) (c : Char) (s : List Char) :
    likeMatch ('_' :: ps) (c :: s) = likeMatch ps s := by
  show likeMatchF (('_' :: ps).length + (c :: s).length + 1) ('_' :: ps) (c :: s) = _
  rw [(by simp only [List.length_cons]; omega :
    ('_' :: ps).length + (c :: s).length + 1 = ps.length + s.length + 2 + 1)]
  rw [likeMatchF_succ_cons, if_neg (by decide), if_neg (by decide)]
  show (if ('_' : Char) = '_' then likeMatchF (ps.length + s.length + 2) ps s
    else (('_' : Char) == c) && likeMatchF (ps.length + s.length + 2) ps s) = likeMatch ps s
  rw [if_pos rfl]
  rw [likeMatchF_stable (ps.length + s.length + 2) (ps.length + s.length + 1) ps s
    (by omega) (by omega)]
  rfl

theorem likeMatch_lit {p : Char} (hp : p ≠ '%') (hb : p ≠ '\\') (hu : p ≠ '_')
    (ps : List Char) (c : Char) (s : List Char) :
    likeMatch (p :: ps) (c :: s) = ((p == c) && likeMatch ps s) := by
  show likeMatchF ((p :: ps).length + (c :: s).length + 1) (p :: ps) (c :: s) = _
  rw [(by simp only [List.length_cons]; omega :
    (p :: ps).length + (c :: s).length + 1 = ps.length + s.length + 2 + 1)]
  rw [likeMatchF_succ_cons, if_neg hp, if_neg hb]
  show (if p = '_' then likeMatchF (ps.length + s.length + 2) ps s
    else (p == c) && likeMatchF (ps.length + s.length + 2) ps s) = ((p == c) && likeMatch ps s)
  rw [if_neg hu]
  rw [likeMatchF_stable (ps.length + s.length + 2) (ps.length + s.length + 1) ps s
    (by omega) (by omega)]
  rfl

theorem likeMatch_cons_nil {p : Char} (hp : p ≠ '%') (ps : List Char) :
    likeMatch (p :: ps) [] = false := by
  show likeMatchF ((p :: ps).length + ([] : List Char).length + 1) (p :: ps) [] = false
  rw [(by simp only [List.length_cons, List.length_nil] :
    (p :: ps).length + ([] : List Char).length + 1 = ps.length + 1 + 1)]
  rw [likeMatchF_succ_cons, if_neg hp]
  by_cases hb : p = '\\'
  · rw [if_pos hb]
    cases ps <;> rfl
  · rw [if_neg hb]

theorem likeMatch_percAll (s : List Char) : likeMatch ['%'] s = true := by
  induction s with
  | nil => rfl
  | cons c s' ih =>
    rw [likeMatch_perc]
    simp only [ih, Bool.or_true]

theorem likeMatch_perc_iff (ps : List Char) : ∀ s : List Char,
    likeMatch ('%' :: ps) s = true ↔ ∃ n, likeMatch ps (s.drop n) = true := by
  intro s
  induction s with
  | nil =>
    rw [likeMatch_perc]
    constructor
    · intro h
      exact ⟨0, by simpa using h⟩
    · intro ⟨n, hn⟩
      simp only [List.drop_nil] at hn
      simpa using hn
  | cons c s' ih =>
    rw [likeMatch_perc]
    simp only [Bool.or_eq_true]
    constructor
    · intro h
      rcases h with h | h
      · exact ⟨0, h⟩
      · obtain ⟨n, hn⟩ := ih.mp h
        exact ⟨n + 1, hn⟩
    · intro ⟨n, hn⟩
      cases n with
      | zero => exact Or.inl hn
      | succ n => exact Or.inr (ih.mpr ⟨n, hn⟩)

theorem likeMatch_escaped_starts (t : List Char) (hbs : ∀ c ∈ t, c ≠ '\\') :
    ∀ s : List Char, likeMatch (escapeL t ++ ['%']) s = true ↔ ∃ u, s = t ++ u := by
  induction t with
  | nil =>
    intro s
    simp only [escapeL, List.nil_append]
    rw [likeMatch_percAll]
    exact ⟨fun _ => ⟨s, rfl⟩, fun _ => rfl⟩
  | cons c t' ih =>
    have hbs' : ∀ x ∈ t', x ≠ '\\' := fun x hx => hbs x (List.mem_cons_of_mem c hx)
    have hc : c ≠ '\\' := hbs c (List.mem_cons_self c t')
    intro s
    by_cases hcp : c = '%'
    · subst hcp
      show likeMatch (('\\' :: '%' :: escapeL t') ++ ['%']) s = true ↔ _
      cases s with
      | nil =>
        rw [List.cons_append, List.cons_append, likeMatch_cons_nil (by decide)]
        constructor
        · intro h; cases h
        · intro ⟨u, hu⟩; cases hu
      | cons d s' =>
        rw [List.cons_append, List.cons_append, likeMatch_esc]
        simp only [Bool.and_eq_true, beq_iff_eq]
        rw [ih hbs' s']
        constructor
        · intro ⟨hd, u, hu⟩
          exact ⟨u, by rw [List.cons_append, ← hd, hu]⟩
        · intro ⟨u, hu⟩
          rw [List.cons_append] at hu
          injection hu with h1 h2
          exact ⟨h1.symm, u, h2⟩
    · by_cases hcu : c = '_'
      · subst hcu
        show likeMatch (('\\' :: '_' :: escapeL t') ++ ['%']) s = true ↔ _
        cases s with
        | nil =>
          rw [List.cons_append, List.cons_append, likeMatch_cons_nil (by decide)]
          constructor
          · intro h; cases h
          · intro ⟨u, hu⟩; cases hu
        | cons d s' =>
          rw [List.cons_append, List.cons_append, likeMatch_esc]
          simp only [Bool.and_eq_true, beq_iff_eq]
          rw [ih hbs' s']
          constructor
          · intro ⟨hd, u, hu⟩
            exact ⟨u, by rw [List.cons_append, ← hd, hu]⟩
          · intro ⟨u, hu⟩
            rw [List.cons_append] at hu
            injection hu with h1 h2
            exact ⟨h1.symm, u, h2⟩
      · show likeMatch ((if c = '%' then ['\\', '%'] else if c = '_' then ['\\', '_'] else [c])
          ++ escapeL t' ++ ['%']) s = true ↔ _
        rw [if_neg hcp, if_neg hcu]
        cases s with
        | nil =>
          rw [List.singleton_append, List.cons_append, likeMatch_cons_nil hcp]
          constructor
          · intro h; cases h
          · intro ⟨u, hu⟩; cases hu
        | cons d s' =>
          rw [List.singleton_append, List.cons_append, likeMatch_lit hcp hc hcu]
          simp only [Bool.and_eq_true, beq_iff_eq]
          rw [ih hbs' s']
          constructor
          · intro ⟨hd, u, hu⟩
            exact ⟨u, by rw [List.cons_append, ← hd, hu]⟩
          · intro ⟨u, hu⟩
            rw [List.cons_append] at hu
            injection hu with h1 h2
            exact ⟨h1.symm, u, h2⟩

theorem isPrefixL_iff : ∀ t s : List Char, isPrefixL t s = true ↔ ∃ u, s = t ++ u := by
  intro t
  induction t with
  | nil =>
    intro s
    constructor
    · intro _
      exact ⟨s, rfl⟩
    · intro _
      rfl
  | cons p ps ih =>
    intro s
    cases s with
    | nil =>
      simp only [isPrefixL, List.cons_append]
      constructor
      · intro h; cases h
      · intro ⟨u, hu⟩; cases hu
    | cons c cs =>
      show ((p == c) && isPrefixL ps cs) = true ↔ _
      simp only [Bool.and_eq_true, beq_iff_eq, ih]
      constructor
      · intro ⟨hpc, u, hu⟩
        exact ⟨u, by rw [List.cons_append, ← hpc, hu]⟩
      · intro ⟨u, hu⟩
        rw [List.cons_append] at hu
        injection hu with h1 h2
        exact ⟨h1.symm, u, h2⟩

theorem containsSub_iff (t : List Char) : ∀ s : List Char,
    containsSub t s = true ↔ ∃ n u, s.drop n = t ++ u := by
  intro s
  induction s with
  | nil =>
    show isPrefixL t [] = true ↔ _
    rw [isPrefixL_iff]
    constructor
    · intro ⟨u, hu⟩
      exact ⟨0, u, hu⟩
    · intro ⟨n, u, hu⟩
      simp only [List.drop_nil] at hu
      exact ⟨u, hu⟩
  | cons c s' ih =>
    show (isPrefixL t (c :: s') || containsSub t s') = true ↔ _
    simp only [Bool.or_eq_true, isPrefixL_iff, ih]
    constructor
    · intro h
      rcases h with ⟨u, hu⟩ | ⟨n, u, hu⟩
      · exact ⟨0, u, hu⟩
      · exact ⟨n + 1, u, hu⟩
    · intro ⟨n, u, hu⟩
      cases n with
      | zero => exact Or.inl ⟨u, hu⟩
      | succ n => exact Or.inr ⟨n, u, hu⟩

theorem escapeL_map_lower (t : List Char) :
    List.map lowerChar (escapeL t) = escapeL (List.map lowerChar t) := by
  induction t with
  | nil => rfl
  | cons c cs ih =>
    show List.map lowerChar
        ((if c = '%' then ['\\', '%'] else if c = '_' then ['\\', '_'] else [c])
          ++ escapeL cs) = _
    rw [List.map_append, ih]
    show _ = (if lowerChar c = '%' then ['\\', '%']
      else if lowerChar c = '_' then ['\\', '_'] else [lowerChar c])
      ++ escapeL (List.map lowerChar cs)
    congr 1
    by_cases hc : c = '%'
    · subst hc; decide
    · by_cases hu : c = '_'
      · subst hu; decide
      · rw [if_neg hc, if_neg hu,
          if_neg (fun hx => hc ((lowerChar_eq_percent c).mp hx)),
          if_neg (fun hx => hu ((lowerChar_eq_underscore c).mp hx))]
        rfl

theorem deleteTitleMatch_eq_containsSub (loc title : String)
    (hbs : ∀ c ∈ loc.data, c ≠ '\\') :
    deleteTitleMatch loc title =
      containsSub (loc.data.map lowerChar) (title.data.map lowerChar) := by
  have hbs' : ∀ c ∈ loc.data.map lowerChar, c ≠ '\\' := by
    intro c hc
    rcases List.mem_map.mp hc with ⟨x, hx, rfl⟩
    intro hlx
    exact hbs x hx ((lowerChar_eq_backslash x).mp hlx)
  have hdata : ("%" ++ escapeLike loc ++ "%").data = '%' :: (escapeL loc.data ++ ['%']) := by
    show (("%".data ++ escapeL loc.data) ++ "%".data) = '%' :: (escapeL loc.data ++ ['%'])
    simp
  have hpat : ("%" ++ escapeLike loc ++ "%").data.map lowerChar =
      '%' :: (escapeL (loc.data.map lowerChar) ++ ['%']) := by
    rw [hdata]
    simp only [List.map_cons, List.map_append, escapeL_map_lower]
    rfl
  unfold deleteTitleMatch ilike
  rw [hpat]
  have hiff : likeMatch ('%' :: (escapeL (loc.data.map lowerChar) ++ ['%']))
      (title.data.map lowerChar) = true ↔
      containsSub (loc.data.map lowerChar) (title.data.map lowerChar) = true := by
    rw [likeMatch_perc_iff, containsSub_iff]
    constructor
    · intro ⟨n, hn⟩
      obtain ⟨u, hu⟩ := (likeMatch_escaped_starts (loc.data.map lowerChar) hbs'
        ((title.data.map lowerChar).drop n)).mp hn
      exact ⟨n, u, hu⟩
    · intro ⟨n, u, hu⟩
      exact ⟨n, (likeMatch_escaped_starts (loc.data.map lowerChar) hbs'
        ((title.data.map lowerChar).drop n)).mpr ⟨u, hu⟩⟩
  cases hA : likeMatch ('%' :: (escapeL (loc.data.map lowerChar) ++ ['%']))
      (title.data.map lowerChar) <;>
    cases hB : containsSub (loc.data.map lowerChar) (title.data.map lowerChar) <;>
    simp_all

/-! ## Claim C5 -/

/-- Claim C5 counterexample: resolving by title, `update_task` with
locator `mi%lk` matches the unrelated title `miXlk` (the `%` acts as a
wildcard, unescaped), while `delete_task` with the same locator does not
match it — so update does not resolve the way delete does and unrelated
titles are matched. -/
theorem C5_counterexample :
    update_task env0 dbMix "1" none (some "mi%lk") none none none none none none none =
      .ok (⟨1, "updated", "miXlk", ""⟩, dbMix) ∧
    delete_task env0 dbMix "1" none (some "mi%lk") none none none =
      .error (.titleNotFound "mi%lk" "1") := by
  decide

/-- Claim C5 amended: `delete_task` escapes `%` and `_` before building
its pattern, so its title predicate is exactly case-insensitive literal
substring containment (a task literally titled `mi%lk` is matched, and
unrelated titles are not matched via wildcard expansion); `update_task`
builds its pattern from the raw locator without escaping, so `%` and `_`
remain active wildcards there and it does not resolve titles the same way
as `delete_task`. -/
theorem C5_amended :
    (∀ loc title : String, (∀ c ∈ loc.data, c ≠ '\\') →
      deleteTitleMatch loc title =
        containsSub (loc.data.map lowerChar) (title.data.map lowerChar)) ∧
    (∀ loc title : String,
      updateTitleMatch loc title =
        likeMatch ('%' :: (loc.data.map lowerChar ++ ['%'])) (title.data.map lowerChar)) ∧
    (deleteTitleMatch "mi%lk" "mi%lk" = true ∧
      deleteTitleMatch "mi%lk" "miXlk" = false ∧
      updateTitleMatch "mi%lk" "miXlk" = true) := by
  refine ⟨deleteTitleMatch_eq_containsSub, ?_, by decide⟩
  intro loc title
  unfold updateTitleMatch ilike
  have hdata : ("%" ++ loc ++ "%").data.map lowerChar =
      '%' :: (loc.data.map lowerChar ++ ['%']) := by
    show ((("%".data ++ loc.data) ++ "%".data).map lowerChar) = _
    simp [show lowerChar '%' = '%' from rfl]
  rw [hdata]

/-- Witness for C5 amended: the delete predicate applied at a
case-insensitive literal-substring instance. -/
theorem C5_amended_witness :
    deleteTitleMatch "milk" "Buy MILK now" =
      containsSub ("milk".data.map lowerChar) ("Buy MILK now".data.map lowerChar) :=
  C5_amended.1 "milk" "Buy MILK now" (by decide)

end TodoSpec
